import Mathlib

/-!
Shallow embedding of the client-side chat / CSV-analysis component in
`src/Chat.jsx` (functions `checkBackendHealth`, `handleCsvFileChange`,
`sendMessage`, `uploadCSV`).  State updates of the React component are
modelled as pure transitions on an explicit `SessionState`; the outcome of
each `fetch` (and of the subsequent `res.json()`) is an oracle parameter of
type `FetchResult`, and the wall clock used by `new Date().toISOString()` is
the string parameter `now`.  JavaScript numbers are modelled as exact
rationals extended with the two infinities (`NaN` never needs a
representation here: every `NaN` produced by `parseFloat` is immediately
coerced to `0` by the `|| 0` fallbacks in the code).
-/

namespace ChatClient

/-- JS number values as they occur in this program: exact rationals plus the
two infinities (`Math.min()` of an empty spread is `Infinity`, `Math.max()`
is `-Infinity`, and `parseFloat` accepts the literal `Infinity`). -/
inductive JsNum where
  | negInf
  | fin (q : ℚ)
  | posInf
deriving DecidableEq

namespace JsNum

/-- Boolean `≤` on JS numbers; total, since `NaN` is absent from our value
space. -/
def ble : JsNum → JsNum → Bool
  | negInf, _ => true
  | fin _, negInf => false
  | fin a, fin b => decide (a ≤ b)
  | fin _, posInf => true
  | posInf, posInf => true
  | posInf, _ => false

def neg : JsNum → JsNum
  | negInf => posInf
  | fin q => fin (-q)
  | posInf => negInf

/-- How a JS number prints inside a template literal.  Integral values print
with no decimal point, the infinities print as `Infinity` / `-Infinity`.
(The shortest-round-trip decimal format JS uses for non-integral values is
not needed by any claim; a placeholder rendering is used there.) -/
def render : JsNum → String
  | posInf => "Infinity"
  | negInf => "-Infinity"
  | fin q => if q.den = 1 then toString q.num else toString q

end JsNum

/-- Model of `Math.min(a, b)` for two non-NaN values. -/
def jsMin2 (a b : JsNum) : JsNum := if a.ble b then a else b

/-- Model of `Math.max(a, b)` for two non-NaN values. -/
def jsMax2 (a b : JsNum) : JsNum := if a.ble b then b else a

/-- Model of `Math.min(...xs)`: left fold starting from `Infinity` (the value of
`Math.min()` with no arguments). -/
def mathMin (l : List JsNum) : JsNum := l.foldl jsMin2 .posInf

/-- Model of `Math.max(...xs)`: left fold starting from `-Infinity`. -/
def mathMax (l : List JsNum) : JsNum := l.foldl jsMax2 .negInf

/-- Decimal digits to a natural number. -/
def digitsToNat (ds : List Char) : Nat :=
  ds.foldl (fun n c => 10 * n + (c.toNat - 48)) 0

/-- Exponent part after the `e`/`E` of a float literal: optional sign then
digits; `none` when no digits follow (JS then ignores the exponent part). -/
def parseExpDigits : List Char → Option Int
  | '+' :: r =>
    let ds := r.takeWhile Char.isDigit
    if ds.isEmpty then none else some (digitsToNat ds : Int)
  | '-' :: r =>
    let ds := r.takeWhile Char.isDigit
    if ds.isEmpty then none else some (-(digitsToNat ds : Int))
  | cs =>
    let ds := cs.takeWhile Char.isDigit
    if ds.isEmpty then none else some (digitsToNat ds : Int)

/-- The rational value `digits / 10 ^ fracLen * 10 ^ e` of a parsed float
with digit string `digits`, `fracLen` digits after the point and signed
exponent `e`. -/
def floatVal (digits : Nat) (fracLen : Nat) (e : Int) : ℚ :=
  if 0 ≤ e then mkRat (digits * 10 ^ e.toNat : Nat) (10 ^ fracLen)
  else mkRat (digits : Int) (10 ^ (fracLen + (-e).toNat))

/-- Unsigned body of `parseFloat`: `Infinity`, or digits with optional
fraction and optional exponent; trailing garbage is ignored; `none` when no
digit was consumed (JS `NaN`). -/
def parseFloatCore (cs : List Char) : Option JsNum :=
  if cs.take 8 = ['I', 'n', 'f', 'i', 'n', 'i', 't', 'y'] then
    some .posInf
  else
    let intDs := cs.takeWhile Char.isDigit
    let rest1 := cs.dropWhile Char.isDigit
    let fracDs :=
      match rest1 with
      | '.' :: r => r.takeWhile Char.isDigit
      | _ => []
    let rest2 :=
      match rest1 with
      | '.' :: r => r.dropWhile Char.isDigit
      | _ => rest1
    if intDs.isEmpty && fracDs.isEmpty then none
    else
      let e : Int :=
        match rest2 with
        | c :: r => if c = 'e' ∨ c = 'E' then (parseExpDigits r).getD 0 else 0
        | [] => 0
      some (.fin (floatVal (digitsToNat (intDs ++ fracDs)) fracDs.length e))

/-- JS `parseFloat`: skip leading whitespace, optional sign, then the float
body; `none` models `NaN`. -/
def parseFloat (s : String) : Option JsNum :=
  let cs := s.toList.dropWhile Char.isWhitespace
  match cs with
  | '+' :: r => parseFloatCore r
  | '-' :: r => (parseFloatCore r).map JsNum.neg
  | _ => parseFloatCore cs

/-- One OHLC record as built by `uploadCSV` (object literal at
`Chat.jsx:109-116`). -/
structure OhlcRecord where
  t : String
  «open» : JsNum
  high : JsNum
  low : JsNum
  close : JsNum
  volume : JsNum
deriving DecidableEq

/-- Model of `parseFloat(values[i]) || 0`: an absent column (`undefined`) or a parse
failure (`NaN`) coerces to `0`; a parsed `0` stays `0`. -/
def jsParseNum (s : Option String) : JsNum :=
  match s with
  | none => .fin 0
  | some str =>
    match parseFloat str with
    | none => .fin 0
    | some v => v

/-- Split a character list at every occurrence of `sep`, keeping empty
pieces (the accumulator holds the current piece reversed). -/
def splitCharAux (sep : Char) : List Char → List Char → List (List Char)
  | [], acc => [acc.reverse]
  | c :: cs, acc =>
    if c = sep then acc.reverse :: splitCharAux sep cs []
    else splitCharAux sep cs (c :: acc)

/-- JS `s.split(sep)` for a single-character separator (the only separators
this program uses are `'\n'` and `','`).  Empty pieces are kept, and the
result is never the empty list: `''.split(x)` is `['']`. -/
def jsSplit (sep : Char) (s : String) : List String :=
  (splitCharAux sep s.toList []).map List.asString

/-- Truthiness of `line.trim()`: true iff the string has a non-whitespace
character. -/
def trimNonempty (s : String) : Bool := s.toList.any (fun c => !c.isWhitespace)

/-- Model of `text.split('\n').filter(line => line.trim())`: newline-separated lines
whose trimmed form is non-empty. -/
def splitLines (text : String) : List String :=
  (jsSplit '\n' text).filter trimNonempty

/-- The `minLines` constant of `uploadCSV`. -/
def minLines : Nat := 50

/-- Line selection of `uploadCSV` (`Chat.jsx:102`):
`dataLines.length >= minLines ? dataLines.slice(-minLines) : dataLines`.
`slice(-n)` on an array of length `≥ n` is the final `n` elements, i.e.
`drop (length - n)`. -/
def selectLines (dataLines : List String) : List String :=
  if dataLines.length ≥ minLines then dataLines.drop (dataLines.length - minLines)
  else dataLines

/-- Conversion of one selected line (`Chat.jsx:107-117`): positional split on
commas; column 0 is the timestamp with the current wall-clock time as
fallback when empty (a split never yields zero fields, so `values[0]` is
never absent); columns 1-5 are numeric with silent coercion to `0`. -/
def convertLine (now : String) (line : String) : OhlcRecord :=
  let values := jsSplit ',' line
  { t := match values.head? with
         | some s => if s = "" then now else s
         | none => now
    «open» := jsParseNum values[1]?
    high := jsParseNum values[2]?
    low := jsParseNum values[3]?
    close := jsParseNum values[4]?
    volume := jsParseNum values[5]? }

/-- Full CSV → OHLC pipeline of `uploadCSV`: non-empty lines, drop the
header, keep the last `minLines` when enough are present, convert each. -/
def convertCsv (now : String) (text : String) : List OhlcRecord :=
  (selectLines ((splitLines text).drop 1)).map (convertLine now)

/-- The locally computed data summary string (`Chat.jsx:131`).  `ohlcData[0]?.t`
and `ohlcData[ohlcData.length-1]?.t` interpolate as `undefined` when the
record list is empty. -/
def summaryText (l : List OhlcRecord) : String :=
  "📊 CSV uploaded and analyzed\n\n📈 Data Summary:\n- Total lines processed: "
    ++ toString l.length
    ++ "\n- Date range: "
    ++ (match l[0]? with | some r => r.t | none => "undefined")
    ++ " to "
    ++ (match l[l.length - 1]? with | some r => r.t | none => "undefined")
    ++ "\n- Price range: $"
    ++ (mathMin (l.map (·.low))).render
    ++ " - $"
    ++ (mathMax (l.map (·.high))).render

/-- One chat message.  `text` is `Option String` because the assistant text
`data.response || data.analysis` can be `undefined` when both fields are
absent. -/
structure ChatMessage where
  sender : String
  text : Option String
deriving DecidableEq

/-- The preview object built by `handleCsvFileChange` (`Chat.jsx:45-49`). -/
structure CsvPreview where
  headers : List String
  preview : List String
  totalLines : Nat
deriving DecidableEq

/-- Outcome of one `fetch` together with the subsequent `res.json()`:
either the fetch rejected (network error), or a response arrived with status
flag `ok` (`res.ok`, i.e. 2xx) and a JSON decode that succeeded or threw. -/
inductive FetchResult (α : Type) where
  | netError
  | response (ok : Bool) (body : Except Unit α)

/-- Whether the request path threw: the fetch rejected or `res.json()`
threw. -/
def FetchResult.failed : FetchResult α → Bool
  | .netError => true
  | .response _ (.error _) => true
  | .response _ (.ok _) => false

/-- Parsed JSON body of a `/chat` response: the two fields the client looks
at, each possibly absent. -/
structure ChatData where
  response : Option String
  analysis : Option String

/-- Parsed JSON body of an `/analyze` response. -/
structure AnalyzeData where
  analysis : Option String

/-- JS `a || b` on string-or-undefined values: the empty string and
`undefined` are falsy. -/
def jsOr (a b : Option String) : Option String :=
  match a with
  | some s => if s = "" then b else a
  | none => b

instance : DecidableEq (Except Unit String) := fun a b =>
  match a, b with
  | .error (), .error () => isTrue rfl
  | .ok s, .ok t =>
    if h : s = t then isTrue (congrArg Except.ok h)
    else isFalse (fun hh => h (Except.ok.inj hh))
  | .error _, .ok _ => isFalse (fun hh => Except.noConfusion hh)
  | .ok _, .error _ => isFalse (fun hh => Except.noConfusion hh)

/-- The component state: message list, pending input, selected file (holding
the result that `await file.text()` would produce), loading flag, backend
status badge, and the derived preview.  (`file.name` / `file.size` are used
only for display and are not modelled.) -/
structure SessionState where
  messages : List ChatMessage
  input : String
  csvFile : Option (Except Unit String)
  loading : Bool
  backendStatus : String
  csvPreview : Option CsvPreview
deriving DecidableEq

/-- Model of `checkBackendHealth` (`Chat.jsx:19-33`).  Note the code awaits
`res.json()` *before* setting `connected`; a JSON decode failure on a 2xx
response therefore lands in the catch and yields `disconnected`. -/
def checkBackendHealth (o : FetchResult Unit) (st : SessionState) : SessionState :=
  match o with
  | .netError => { st with backendStatus := "disconnected" }
  | .response ok body =>
    if ok then
      match body with
      | .ok _ => { st with backendStatus := "connected" }
      | .error _ => { st with backendStatus := "disconnected" }
    else { st with backendStatus := "error" }

/-- Model of `handleCsvFileChange` (`Chat.jsx:36-57`).  `setCsvFile(file)` runs first
in every branch; an empty line list makes `lines[0].split` throw, which the
catch turns into a cleared preview. -/
def handleCsvFileChange (file : Option (Except Unit String)) (st : SessionState) :
    SessionState :=
  match file with
  | none => { st with csvFile := none, csvPreview := none }
  | some (.error _) => { st with csvFile := file, csvPreview := none }
  | some (.ok text) =>
    let lines := splitLines text
    match lines.head? with
    | none => { st with csvFile := file, csvPreview := none }
    | some l0 =>
      { st with
          csvFile := file
          csvPreview := some
            { headers := jsSplit ',' l0
              preview := (lines.drop 1).take 5
              totalLines := lines.length - 1 } }

/-- The fixed error text of `sendMessage`. -/
def chatErrorText : String :=
  "❌ Error connecting to backend. Make sure the server is running on port 8000."

/-- Model of `sendMessage` (`Chat.jsx:60-86`) as a state transition.  The guard
`!input.trim()` returns before any state change; otherwise the user message
is appended optimistically, the response (or the fixed error) is appended,
and the input is cleared and loading reset regardless of outcome.  There is
no `res.ok` check: any decoded JSON body produces an assistant message. -/
def sendMessage (o : FetchResult ChatData) (st : SessionState) : SessionState :=
  if trimNonempty st.input = false then st
  else
    let withUser := st.messages ++ [⟨"user", some st.input⟩]
    let messages' :=
      match o with
      | .netError => withUser ++ [⟨"system", some chatErrorText⟩]
      | .response _ (.error _) => withUser ++ [⟨"system", some chatErrorText⟩]
      | .response _ (.ok d) => withUser ++ [⟨"assistant", jsOr d.response d.analysis⟩]
    { st with messages := messages', input := "", loading := false }

/-- The request payload `sendMessage` posts (form field `prompt`), `none`
when the empty-input guard fires and no request is issued. -/
def sendMessageRequest (st : SessionState) : Option String :=
  if trimNonempty st.input = false then none else some st.input

/-- The fixed error text of `uploadCSV`. -/
def analyzeErrorText : String := "❌ Failed to upload and analyze CSV"

/-- The default question substituted by `input || 'Analyze this CSV data'`. -/
def defaultQuestion : String := "Analyze this CSV data"

/-- The payload `uploadCSV` posts to `/analyze`: form fields `question` and
`ohlc_json` (the serialized record list). -/
structure AnalyzeRequest where
  question : String
  ohlc : List OhlcRecord
deriving DecidableEq

/-- Model of `uploadCSV` (`Chat.jsx:89-147`) as a state transition.  The guard
`!csvFile` returns before any state change.  Inside the try block, a file
read failure, an empty line list (`lines[0].split` throws), a fetch
rejection or a JSON decode failure all reach the catch, which appends only
the error message; the summary is appended only after a successfully decoded
response, followed by an assistant message when `data.analysis` is truthy.
The trailing cleanup (clear file, clear preview, loading off) runs on every
non-guarded path. -/
def uploadCSV (now : String) (o : FetchResult AnalyzeData) (st : SessionState) :
    SessionState :=
  match st.csvFile with
  | none => st
  | some fileText =>
    let messages' :=
      match fileText with
      | .error _ => st.messages ++ [⟨"system", some analyzeErrorText⟩]
      | .ok text =>
        if (splitLines text).isEmpty then
          st.messages ++ [⟨"system", some analyzeErrorText⟩]
        else
          match o with
          | .netError => st.messages ++ [⟨"system", some analyzeErrorText⟩]
          | .response _ (.error _) =>
            st.messages ++ [⟨"system", some analyzeErrorText⟩]
          | .response _ (.ok d) =>
            let base := st.messages ++ [⟨"system", some (summaryText (convertCsv now text))⟩]
            match d.analysis with
            | some a => if a = "" then base else base ++ [⟨"assistant", some a⟩]
            | none => base
    { st with messages := messages', csvFile := none, csvPreview := none,
              loading := false }

/-- The payload `uploadCSV` posts, `none` on the paths where execution never
reaches the fetch (no file selected, file read threw, no non-empty line). -/
def uploadCSVRequest (now : String) (st : SessionState) : Option AnalyzeRequest :=
  match st.csvFile with
  | none => none
  | some (.error _) => none
  | some (.ok text) =>
    if (splitLines text).isEmpty then none
    else some
      { question := if st.input = "" then defaultQuestion else st.input
        ohlc := convertCsv now text }

/-- Positional access to the five numeric columns of an `OhlcRecord`
(1 = open, 2 = high, 3 = low, 4 = close, 5 = volume), used to state the
positional-parsing property uniformly. -/
def recField : Nat → OhlcRecord → JsNum
  | 1, r => r.«open»
  | 2, r => r.high
  | 3, r => r.low
  | 4, r => r.close
  | 5, r => r.volume
  | _, _ => .fin 0

/-- The initial component state: the `useState` initial values at
`Chat.jsx:7-12`. -/
def initialState : SessionState :=
  { messages := [], input := "", csvFile := none, loading := false,
    backendStatus := "checking", csvPreview := none }

theorem JsNum.ble_refl (a : JsNum) : a.ble a = true := by
  cases a <;> simp [JsNum.ble]

theorem JsNum.ble_total (a b : JsNum) : a.ble b = true ∨ b.ble a = true := by
  cases a <;> cases b <;> simp [JsNum.ble] <;> exact le_total _ _

theorem JsNum.ble_trans {a b c : JsNum} (h1 : a.ble b = true) (h2 : b.ble c = true) :
    a.ble c = true := by
  cases a <;> cases b <;> cases c <;> simp_all [JsNum.ble]
  exact le_trans h1 h2

theorem jsMin2_eq_or (a b : JsNum) : jsMin2 a b = a ∨ jsMin2 a b = b := by
  unfold jsMin2
  by_cases h : a.ble b = true <;> simp [h]

theorem jsMin2_ble_left (a b : JsNum) : (jsMin2 a b).ble a = true := by
  unfold jsMin2
  by_cases h : a.ble b = true
  · simp [h, JsNum.ble_refl]
  · simp only [h, if_false, Bool.false_eq_true]
    rcases JsNum.ble_total a b with h1 | h1
    · exact absurd h1 h
    · exact h1

theorem jsMin2_ble_right (a b : JsNum) : (jsMin2 a b).ble b = true := by
  unfold jsMin2
  by_cases h : a.ble b = true
  · simp [h]
  · simp [h, JsNum.ble_refl]

theorem jsMax2_eq_or (a b : JsNum) : jsMax2 a b = a ∨ jsMax2 a b = b := by
  unfold jsMax2
  by_cases h : a.ble b = true <;> simp [h]

theorem jsMax2_ble_left (a b : JsNum) : a.ble (jsMax2 a b) = true := by
  unfold jsMax2
  by_cases h : a.ble b = true
  · simp [h]
  · simp [h, JsNum.ble_refl]

theorem jsMax2_ble_right (a b : JsNum) : b.ble (jsMax2 a b) = true := by
  unfold jsMax2
  by_cases h : a.ble b = true
  · simp [h, JsNum.ble_refl]
  · simp only [h, if_false, Bool.false_eq_true]
    rcases JsNum.ble_total a b with h1 | h1
    · exact absurd h1 h
    · exact h1

theorem foldl_jsMin2_spec (l : List JsNum) : ∀ acc : JsNum,
    (l.foldl jsMin2 acc = acc ∨ l.foldl jsMin2 acc ∈ l) ∧
    (l.foldl jsMin2 acc).ble acc = true ∧
    ∀ x ∈ l, (l.foldl jsMin2 acc).ble x = true := by
  induction l with
  | nil => exact fun acc => ⟨Or.inl rfl, JsNum.ble_refl acc, by simp⟩
  | cons y ys ih =>
    intro acc
    have h := ih (jsMin2 acc y)
    rw [List.foldl_cons]
    refine ⟨?_, ?_, ?_⟩
    · rcases h.1 with h1 | h1
      · rcases jsMin2_eq_or acc y with h2 | h2
        · exact Or.inl (h1.trans h2)
        · rw [h1, h2]; exact Or.inr (List.mem_cons_self y ys)
      · exact Or.inr (List.mem_cons_of_mem y h1)
    · exact JsNum.ble_trans h.2.1 (jsMin2_ble_left acc y)
    · intro x hx
      rcases List.mem_cons.mp hx with h2 | h2
      · rw [h2]; exact JsNum.ble_trans h.2.1 (jsMin2_ble_right acc y)
      · exact h.2.2 x h2

theorem foldl_jsMax2_spec (l : List JsNum) : ∀ acc : JsNum,
    (l.foldl jsMax2 acc = acc ∨ l.foldl jsMax2 acc ∈ l) ∧
    acc.ble (l.foldl jsMax2 acc) = true ∧
    ∀ x ∈ l, x.ble (l.foldl jsMax2 acc) = true := by
  induction l with
  | nil => exact fun acc => ⟨Or.inl rfl, JsNum.ble_refl acc, by simp⟩
  | cons y ys ih =>
    intro acc
    have h := ih (jsMax2 acc y)
    rw [List.foldl_cons]
    refine ⟨?_, ?_, ?_⟩
    · rcases h.1 with h1 | h1
      · rcases jsMax2_eq_or acc y with h2 | h2
        · exact Or.inl (h1.trans h2)
        · rw [h1, h2]; exact Or.inr (List.mem_cons_self y ys)
      · exact Or.inr (List.mem_cons_of_mem y h1)
    · exact JsNum.ble_trans (jsMax2_ble_left acc y) h.2.1
    · intro x hx
      rcases List.mem_cons.mp hx with h2 | h2
      · rw [h2]; exact JsNum.ble_trans (jsMax2_ble_right acc y) h.2.1
      · exact h.2.2 x h2

theorem posInf_ble_eq {x : JsNum} (h : JsNum.posInf.ble x = true) : x = .posInf := by
  cases x <;> simp_all [JsNum.ble]

theorem ble_negInf_eq {x : JsNum} (h : x.ble .negInf = true) : x = .negInf := by
  cases x <;> simp_all [JsNum.ble]

theorem mathMin_spec (l : List JsNum) (h : l ≠ []) :
    mathMin l ∈ l ∧ ∀ x ∈ l, (mathMin l).ble x = true := by
  have hs := foldl_jsMin2_spec l .posInf
  refine ⟨?_, hs.2.2⟩
  rcases hs.1 with h1 | h1
  · obtain ⟨x, hx⟩ := List.exists_mem_of_ne_nil l h
    have hble := hs.2.2 x hx
    unfold mathMin
    rw [h1] at hble ⊢
    exact (posInf_ble_eq hble) ▸ hx
  · exact h1

theorem mathMax_spec (l : List JsNum) (h : l ≠ []) :
    mathMax l ∈ l ∧ ∀ x ∈ l, x.ble (mathMax l) = true := by
  have hs := foldl_jsMax2_spec l .negInf
  refine ⟨?_, hs.2.2⟩
  rcases hs.1 with h1 | h1
  · obtain ⟨x, hx⟩ := List.exists_mem_of_ne_nil l h
    have hble := hs.2.2 x hx
    unfold mathMax
    rw [h1] at hble ⊢
    exact (ble_negInf_eq hble) ▸ hx
  · exact h1

/-- C2: for a CSV text with `N ≥ 1` non-empty data lines after the header,
the converter selects exactly `min N 50` lines, those lines form a suffix of
the data lines (so their original order is preserved and no re-sorting
happens), and when `N > 50` they are exactly the last 50 data lines. -/
theorem converter_selects_last_min50 (text : String)
    (hn : 1 ≤ ((splitLines text).drop 1).length) :
    (selectLines ((splitLines text).drop 1)).length
      = min ((splitLines text).drop 1).length 50 ∧
    selectLines ((splitLines text).drop 1) <:+ (splitLines text).drop 1 ∧
    (((splitLines text).drop 1).length > 50 →
      selectLines ((splitLines text).drop 1)
        = ((splitLines text).drop 1).drop (((splitLines text).drop 1).length - 50)) := by
  set dl := (splitLines text).drop 1 with hdl
  unfold selectLines minLines
  by_cases hge : dl.length ≥ 50
  · rw [if_pos hge]
    refine ⟨?_, List.drop_suffix _ _, fun _ => rfl⟩
    rw [List.length_drop]
    omega
  · rw [if_neg hge]
    exact ⟨by omega, List.suffix_refl dl, fun hgt => absurd (le_of_lt hgt) hge⟩

/-- C2 witness: a concrete 2-data-line CSV selects exactly `min 2 50 = 2`
lines. -/
theorem converter_selects_last_min50_witness :
    1 ≤ ((splitLines "h\na,1\nb,2").drop 1).length ∧
    (selectLines ((splitLines "h\na,1\nb,2").drop 1)).length
      = min ((splitLines "h\na,1\nb,2").drop 1).length 50 :=
  ⟨by decide, (converter_selects_last_min50 "h\na,1\nb,2" (by decide)).1⟩

/-- C4: for every non-empty record set, the summary's lower price bound
`Math.min(...map(d => d.low))` is an attained lower bound of the `low`
fields and the upper bound `Math.max(...map(d => d.high))` is an attained
upper bound of the `high` fields; moreover, on the 3-row scenario CSV the
converter yields exactly the three records in input order and the summary
message reports the range `$9 - $14`. -/
theorem summary_price_range_correct (l : List OhlcRecord) (now : String)
    (h : l ≠ []) :
    (mathMin (l.map (·.low)) ∈ l.map (·.low) ∧
      ∀ x ∈ l.map (·.low), (mathMin (l.map (·.low))).ble x = true) ∧
    (mathMax (l.map (·.high)) ∈ l.map (·.high) ∧
      ∀ x ∈ l.map (·.high), x.ble (mathMax (l.map (·.high))) = true) ∧
    convertCsv now
        "timestamp,open,high,low,close,volume\nt1,10,12,9,11,100\nt2,11,13,10,12,110\nt3,12,14,11,13,120"
      = [⟨"t1", .fin 10, .fin 12, .fin 9, .fin 11, .fin 100⟩,
         ⟨"t2", .fin 11, .fin 13, .fin 10, .fin 12, .fin 110⟩,
         ⟨"t3", .fin 12, .fin 14, .fin 11, .fin 13, .fin 120⟩] ∧
    summaryText
        [⟨"t1", .fin 10, .fin 12, .fin 9, .fin 11, .fin 100⟩,
         ⟨"t2", .fin 11, .fin 13, .fin 10, .fin 12, .fin 110⟩,
         ⟨"t3", .fin 12, .fin 14, .fin 11, .fin 13, .fin 120⟩]
      = "📊 CSV uploaded and analyzed\n\n📈 Data Summary:\n- Total lines processed: 3\n- Date range: t1 to t3\n- Price range: $9 - $14" := by
  have hmapl : l.map (·.low) ≠ [] := fun hm => h (List.map_eq_nil_iff.mp hm)
  have hmaph : l.map (·.high) ≠ [] := fun hm => h (List.map_eq_nil_iff.mp hm)
  exact ⟨mathMin_spec _ hmapl, mathMax_spec _ hmaph, rfl, by decide⟩

/-- C4 witness: the scenario record set is non-empty and its minimum low is
an element of the lows. -/
theorem summary_price_range_correct_witness :
    ([(⟨"t1", .fin 10, .fin 12, .fin 9, .fin 11, .fin 100⟩ : OhlcRecord)] ≠ []) ∧
    mathMin ([(⟨"t1", .fin 10, .fin 12, .fin 9, .fin 11, .fin 100⟩ : OhlcRecord)].map (·.low))
      ∈ [(⟨"t1", .fin 10, .fin 12, .fin 9, .fin 11, .fin 100⟩ : OhlcRecord)].map (·.low) :=
  ⟨by decide,
   (summary_price_range_correct
      [⟨"t1", .fin 10, .fin 12, .fin 9, .fin 11, .fin 100⟩] "NOW" (by decide)).1.1⟩

/-- C5: with whitespace-only input, `sendMessage` leaves the state untouched
and issues no request; with no file selected, `uploadCSV` leaves the state
untouched and issues no request. -/
theorem empty_input_no_file_noop (st : SessionState) (now : String)
    (oc : FetchResult ChatData) (oa : FetchResult AnalyzeData) :
    (trimNonempty st.input = false →
      sendMessage oc st = st ∧ sendMessageRequest st = none) ∧
    (st.csvFile = none →
      uploadCSV now oa st = st ∧ uploadCSVRequest now st = none) := by
  constructor
  · intro h
    constructor
    · unfold sendMessage
      rw [if_pos h]
    · unfold sendMessageRequest
      rw [if_pos h]
  · intro h
    constructor
    · unfold uploadCSV
      rw [h]
    · unfold uploadCSVRequest
      rw [h]

/-- C5 witness: the initial state (empty input, no file) is fixed by both
actions. -/
theorem empty_input_no_file_noop_witness :
    trimNonempty initialState.input = false ∧
    sendMessage .netError initialState = initialState ∧
    initialState.csvFile = none ∧
    uploadCSV "NOW" .netError initialState = initialState := by
  have h := empty_input_no_file_noop initialState "NOW" .netError .netError
  exact ⟨by decide, (h.1 (by decide)).1, rfl, (h.2 rfl).1⟩

/-- C6: with non-empty (non-whitespace) input, `sendMessage` always clears
the input and resets the loading flag, and a failing chat request (fetch
rejection or JSON decode failure) appends exactly the optimistic user
message followed by one system message with the fixed error text. -/
theorem chat_failure_single_system_message (st : SessionState)
    (o : FetchResult ChatData) (h : trimNonempty st.input = true) :
    (sendMessage o st).input = "" ∧
    (sendMessage o st).loading = false ∧
    (o.failed = true →
      (sendMessage o st).messages
        = st.messages ++ [⟨"user", some st.input⟩, ⟨"system", some chatErrorText⟩]) := by
  unfold sendMessage
  rw [if_neg (by simp [h])]
  refine ⟨rfl, rfl, ?_⟩
  intro hf
  cases o with
  | netError => simp
  | response ok body =>
    cases body with
    | error e => simp
    | ok d => simp [FetchResult.failed] at hf

/-- C6 witness: a concrete failing send with input `hi` appends the user
message then the system error, clearing the input. -/
theorem chat_failure_single_system_message_witness :
    trimNonempty ({ initialState with input := "hi" } : SessionState).input = true ∧
    (sendMessage .netError { initialState with input := "hi" }).input = "" ∧
    (sendMessage .netError { initialState with input := "hi" }).messages
      = ({ initialState with input := "hi" } : SessionState).messages
        ++ [⟨"user", some "hi"⟩, ⟨"system", some chatErrorText⟩] := by
  have h := chat_failure_single_system_message
    { initialState with input := "hi" } .netError (by decide)
  exact ⟨by decide, h.1, h.2.2 rfl⟩

/-- C3 counterexample: a 2xx health response whose body is not valid JSON
sets the status to `disconnected`, not `connected` — the response body does
affect the outcome, refuting the claim that only the status code matters. -/
theorem health_2xx_bad_body_not_connected :
    (checkBackendHealth (.response true (.error ())) initialState).backendStatus
      = "disconnected" ∧
    (checkBackendHealth (.response true (.error ())) initialState).backendStatus
      ≠ "connected" :=
  ⟨rfl, by decide⟩

/-- C3 (amended): a 2xx response with a JSON-decodable body yields
`connected`; a 2xx response whose body fails JSON decoding yields
`disconnected` (the decode error is caught like a network failure); a
network failure yields `disconnected`; a non-2xx response yields `error`. -/
theorem health_status_mapping (st : SessionState) (o : FetchResult Unit) :
    (o = .netError → (checkBackendHealth o st).backendStatus = "disconnected") ∧
    (∀ b, o = .response true (.ok b) →
      (checkBackendHealth o st).backendStatus = "connected") ∧
    (∀ e, o = .response true (.error e) →
      (checkBackendHealth o st).backendStatus = "disconnected") ∧
    (∀ body, o = .response false body →
      (checkBackendHealth o st).backendStatus = "error") :=
  ⟨fun h => by rw [h]; rfl, fun b h => by rw [h]; rfl, fun e h => by rw [h]; rfl,
   fun body h => by rw [h]; rfl⟩

/-- C3 witness: a concrete network failure yields `disconnected`. -/
theorem health_status_mapping_witness :
    (checkBackendHealth .netError initialState).backendStatus = "disconnected" :=
  (health_status_mapping initialState .netError).1 rfl

/-- C1 counterexample: on a selected one-data-row file the claim fails in
both branches.  A failing analyze request appends exactly one message — the
system error — not two, with no summary; and a succeeding one whose decoded
body carries no `analysis` field (or an empty one) appends only the summary,
with no assistant message following it. -/
theorem analyze_message_claim_counterexample :
    (uploadCSV "2024-01-01T00:00:00Z" .netError
        { initialState with csvFile := some (.ok "h\na,1,2,3,4,5") }).messages
      = [⟨"system", some analyzeErrorText⟩] ∧
    (uploadCSV "2024-01-01T00:00:00Z" .netError
        { initialState with csvFile := some (.ok "h\na,1,2,3,4,5") }).messages.length
      ≠ 2 ∧
    (uploadCSV "2024-01-01T00:00:00Z" (.response true (.ok ⟨none⟩))
        { initialState with csvFile := some (.ok "h\na,1,2,3,4,5") }).messages
      = [⟨"system",
          some (summaryText (convertCsv "2024-01-01T00:00:00Z" "h\na,1,2,3,4,5"))⟩] ∧
    (uploadCSV "2024-01-01T00:00:00Z" (.response true (.ok ⟨some ""⟩))
        { initialState with csvFile := some (.ok "h\na,1,2,3,4,5") }).messages
      = [⟨"system",
          some (summaryText (convertCsv "2024-01-01T00:00:00Z" "h\na,1,2,3,4,5"))⟩] :=
  ⟨by decide, by decide, by decide, by decide⟩

/-- C1 (amended): when a file is selected whose text reads successfully and
has at least one non-empty line, a failing analyze request (fetch rejection
or JSON decode failure) appends exactly one message — the fixed system error
— with no summary, while a succeeding one appends the locally computed
summary (system) first, followed by one assistant message exactly when the
response's `analysis` field is present and non-empty, and by nothing when it
is absent or empty. -/
theorem analyze_message_appends (now text : String) (st : SessionState)
    (o : FetchResult AnalyzeData)
    (hf : st.csvFile = some (.ok text)) (hl : (splitLines text).isEmpty = false) :
    (o.failed = true →
      (uploadCSV now o st).messages
        = st.messages ++ [⟨"system", some analyzeErrorText⟩]) ∧
    (∀ ok d, o = .response ok (.ok d) →
      (uploadCSV now o st).messages
        = st.messages ++ [⟨"system", some (summaryText (convertCsv now text))⟩]
          ++ (match d.analysis with
              | some a =>
                if a = "" then [] else [(⟨"assistant", some a⟩ : ChatMessage)]
              | none => [])) := by
  refine ⟨?_, ?_⟩
  · intro hfo
    cases o with
    | netError =>
      unfold uploadCSV
      rw [hf]
      simp [hl]
    | response ok body =>
      cases body with
      | error e =>
        unfold uploadCSV
        rw [hf]
        simp [hl]
      | ok d => simp [FetchResult.failed] at hfo
  · intro ok d ho
    subst ho
    unfold uploadCSV
    rw [hf]
    rcases ha : d.analysis with _ | a
    · simp [hl, ha]
    · by_cases ha2 : a = ""
      · simp [hl, ha, ha2]
      · simp [hl, ha, ha2]

/-- C1 witness: on a one-row file, a concrete failing request appends
exactly the error message, and a concrete succeeding request whose
`analysis` field is present but empty appends only the summary. -/
theorem analyze_message_appends_witness :
    ((uploadCSV "NOW" (.netError : FetchResult AnalyzeData)
        { initialState with csvFile := some (.ok "h\nr,1,2,3,4,5") }).messages
      = ({ initialState with csvFile := some (.ok "h\nr,1,2,3,4,5") } : SessionState).messages
        ++ [⟨"system", some analyzeErrorText⟩]) ∧
    ((uploadCSV "NOW" (.response true (.ok ⟨some ""⟩))
        { initialState with csvFile := some (.ok "h\nr,1,2,3,4,5") }).messages
      = ({ initialState with csvFile := some (.ok "h\nr,1,2,3,4,5") } : SessionState).messages
        ++ [⟨"system", some (summaryText (convertCsv "NOW" "h\nr,1,2,3,4,5"))⟩]) := by
  constructor
  · exact (analyze_message_appends "NOW" "h\nr,1,2,3,4,5"
      { initialState with csvFile := some (.ok "h\nr,1,2,3,4,5") } .netError rfl
      (by decide)).1 rfl
  · have h := (analyze_message_appends "NOW" "h\nr,1,2,3,4,5"
      { initialState with csvFile := some (.ok "h\nr,1,2,3,4,5") }
      (.response true (.ok ⟨some ""⟩)) rfl (by decide)).2 true ⟨some ""⟩ rfl
    simpa using h

/-- C7: each selected line is split on commas positionally — column 0
becomes the timestamp with the wall-clock fallback when empty, and each
numeric column (1 = open … 5 = volume) takes the parsed value when
`parseFloat` succeeds and silently coerces to `0` when the column is absent
or parsing fails. -/
theorem convert_line_positional_fields (now line : String) :
    ((jsSplit ',' line).head? = some "" → (convertLine now line).t = now) ∧
    (∀ s, (jsSplit ',' line).head? = some s → s ≠ "" →
      (convertLine now line).t = s) ∧
    (∀ i, 1 ≤ i → i ≤ 5 →
      ((jsSplit ',' line)[i]? = none →
        recField i (convertLine now line) = .fin 0) ∧
      (∀ s, (jsSplit ',' line)[i]? = some s → parseFloat s = none →
        recField i (convertLine now line) = .fin 0) ∧
      (∀ s v, (jsSplit ',' line)[i]? = some s → parseFloat s = some v →
        recField i (convertLine now line) = v)) := by
  refine ⟨?_, ?_, ?_⟩
  · intro hh
    simp [convertLine, hh]
  · intro s hh hne
    simp [convertLine, hh, hne]
  · intro i h1 h5
    interval_cases i <;>
      exact ⟨fun hg => by simp [convertLine, recField, hg, jsParseNum],
             fun s hg hp => by simp [convertLine, recField, hg, jsParseNum, hp],
             fun s v hg hp => by simp [convertLine, recField, hg, jsParseNum, hp]⟩

/-- C7 witness: on the line `t1,abc` the open column fails to parse and is
coerced to `0`. -/
theorem convert_line_positional_fields_witness :
    (jsSplit ',' "t1,abc")[1]? = some "abc" ∧ parseFloat "abc" = none ∧
    recField 1 (convertLine "NOW" "t1,abc") = .fin 0 :=
  ⟨by decide, by decide,
   ((convert_line_positional_fields "NOW" "t1,abc").2.2 1 (by decide)
      (by decide)).2.1 "abc" (by decide) (by decide)⟩

/-- C8: the preview builder stores the selected file in every branch, and:
clears the preview when no file is passed, when the text extraction throws,
or when the text has no non-empty line (the `lines[0].split` crash caught by
the handler); otherwise it sets the headers to line 0 split on commas, the
preview to at most the next five lines, and `totalLines` to the non-empty
line count minus one. -/
theorem preview_builder_spec (st : SessionState)
    (file : Option (Except Unit String)) :
    (file = none → handleCsvFileChange file st
        = { st with csvFile := none, csvPreview := none }) ∧
    (∀ e, file = some (.error e) → handleCsvFileChange file st
        = { st with csvFile := file, csvPreview := none }) ∧
    (∀ text, file = some (.ok text) → splitLines text = [] →
      handleCsvFileChange file st
        = { st with csvFile := file, csvPreview := none }) ∧
    (∀ text l0 rest, file = some (.ok text) → splitLines text = l0 :: rest →
      handleCsvFileChange file st
        = { st with
              csvFile := file,
              csvPreview := some ⟨jsSplit ',' l0, rest.take 5, rest.length⟩ }) := by
  refine ⟨?_, ?_, ?_, ?_⟩
  · intro h; subst h; rfl
  · intro e h; subst h; rfl
  · intro text h hsplit
    subst h
    unfold handleCsvFileChange
    simp [hsplit]
  · intro text l0 rest h hsplit
    subst h
    unfold handleCsvFileChange
    simp [hsplit]

/-- C8 witness: a concrete two-line file yields headers `h1, h2`, one
preview row and `totalLines = 1`. -/
theorem preview_builder_spec_witness :
    splitLines "h1,h2\nr1" = ["h1,h2", "r1"] ∧
    handleCsvFileChange (some (.ok "h1,h2\nr1")) initialState
      = { initialState with
            csvFile := some (.ok "h1,h2\nr1"),
            csvPreview := some ⟨jsSplit ',' "h1,h2", ["r1"].take 5, ["r1"].length⟩ } :=
  ⟨by decide,
   (preview_builder_spec initialState (some (.ok "h1,h2\nr1"))).2.2.2
      "h1,h2\nr1" "h1,h2" ["r1"] rfl (by decide)⟩

/-- C9: `uploadCSV` never modifies the input text — it is preserved on every
outcome — and when a request is issued its question field is the current
input, with the fixed default phrase substituted exactly when the input is
the empty string. -/
theorem analyze_preserves_input (now : String) (o : FetchResult AnalyzeData)
    (st : SessionState) :
    (uploadCSV now o st).input = st.input ∧
    (∀ req, uploadCSVRequest now st = some req →
      req.question = if st.input = "" then defaultQuestion else st.input) := by
  constructor
  · unfold uploadCSV
    rcases st.csvFile with _ | f
    · rfl
    · rfl
  · intro req hreq
    unfold uploadCSVRequest at hreq
    rcases hcf : st.csvFile with _ | f
    · rw [hcf] at hreq
      exact absurd hreq (by simp)
    · rw [hcf] at hreq
      rcases f with e | text
      · exact absurd hreq (by simp)
      · have hreq2 :
            (if (splitLines text).isEmpty = true then none
             else some (⟨if st.input = "" then defaultQuestion else st.input,
                         convertCsv now text⟩ : AnalyzeRequest)) = some req := hreq
        by_cases hle : (splitLines text).isEmpty = true
        · rw [if_pos hle] at hreq2
          exact absurd hreq2 (by simp)
        · rw [if_neg hle] at hreq2
          have hx : req = ⟨if st.input = "" then defaultQuestion else st.input,
                           convertCsv now text⟩ := (Option.some.inj hreq2).symm
          rw [hx]

/-- C9 witness: a concrete upload (failing request) leaves the input text
unchanged. -/
theorem analyze_preserves_input_witness :
    (uploadCSV "NOW" .netError
        { initialState with csvFile := some (.ok "h\na,1,2,3,4,5"), input := "keep me" }).input
      = ({ initialState with
             csvFile := some (.ok "h\na,1,2,3,4,5"),
             input := "keep me" } : SessionState).input :=
  (analyze_preserves_input "NOW" .netError
      { initialState with csvFile := some (.ok "h\na,1,2,3,4,5"), input := "keep me" }).1

/-- C10: analyzing a header-only CSV (exactly one non-empty line) is not a
no-op — a request carrying an empty record array is issued, and a
successfully decoded response with no analysis field appends exactly the
summary over the empty record set, which reports 0 lines processed,
`undefined` first/last timestamps, and the empty-set price range
`$Infinity - $-Infinity` (min and max of an empty spread). -/
theorem analyze_header_only_not_noop (now text l0 : String) (st : SessionState)
    (ok : Bool) (hf : st.csvFile = some (.ok text)) (hl : splitLines text = [l0]) :
    uploadCSVRequest now st
      = some ⟨if st.input = "" then defaultQuestion else st.input, []⟩ ∧
    (uploadCSV now (.response ok (.ok ⟨none⟩)) st).messages
      = st.messages ++ [⟨"system", some (summaryText [])⟩] ∧
    summaryText []
      = "📊 CSV uploaded and analyzed\n\n📈 Data Summary:\n- Total lines processed: 0\n- Date range: undefined to undefined\n- Price range: $Infinity - $-Infinity" ∧
    mathMin ([] : List JsNum) = JsNum.posInf ∧
    mathMax ([] : List JsNum) = JsNum.negInf := by
  have hconv : convertCsv now text = [] := by
    unfold convertCsv
    rw [hl]
    rfl
  refine ⟨?_, ?_, by decide, rfl, rfl⟩
  · unfold uploadCSVRequest
    rw [hf]
    simp [hl, hconv]
  · unfold uploadCSV
    rw [hf]
    simp [hl, hconv]

/-- C10 witness: the concrete header-only file issues a request carrying an
empty record array. -/
theorem analyze_header_only_not_noop_witness :
    splitLines "timestamp,open,high,low,close,volume\n"
      = ["timestamp,open,high,low,close,volume"] ∧
    uploadCSVRequest "NOW"
        { initialState with
            csvFile := some (.ok "timestamp,open,high,low,close,volume\n") }
      = some ⟨defaultQuestion, []⟩ := by
  have h := analyze_header_only_not_noop "NOW" "timestamp,open,high,low,close,volume\n"
      "timestamp,open,high,low,close,volume"
      { initialState with
          csvFile := some (.ok "timestamp,open,high,low,close,volume\n") }
      true rfl (by decide)
  exact ⟨by decide, by simpa [initialState] using h.1⟩

end ChatClient
